import Mathlib

/-!
Formal model of the MCP chatbot client (`mcp_client.py`): the capability
registry, the connection manager, command-argument parsing and the
interactive dispatch loop.  Every definition is a direct shallow embedding
of the corresponding Python function; session objects are represented by
numeric identifiers, transport calls by an explicit environment of
oracles, and Python exceptions by an explicit error type.
-/

deriving instance DecidableEq for Except

namespace MCPChat

/-- Characters removed by Python `str.strip()` (ASCII whitespace). -/
def isPySpace (c : Char) : Bool :=
  c = ' ' || c = '\t' || c = '\n' || c = '\r' || c = '\x0b' || c = '\x0c'

/-- Model of Python `str.strip()`: drop whitespace at both ends. -/
def pyStrip (s : String) : String :=
  ⟨((s.data.dropWhile isPySpace).reverse.dropWhile isPySpace).reverse⟩

/-- Model of Python `str.lower()` on ASCII letters. -/
def pyLower (s : String) : String :=
  ⟨s.data.map Char.toLower⟩

/-- The double-quote character. -/
def dquote : Char := Char.ofNat 34

/-- The single-quote character. -/
def squote : Char := Char.ofNat 39

/-- The backslash character. -/
def bslash : Char := '\\'

/-- Whitespace characters recognized by `shlex` (`shlex.whitespace`). -/
def shlexSpace (c : Char) : Bool :=
  c = ' ' || c = '\t' || c = '\r' || c = '\n'

/-- Lexer state of `shlex` in POSIX mode with `whitespace_split=True`:
between tokens, inside an unquoted word, inside a quoted section, after a
backslash outside quotes, or after a backslash inside double quotes. -/
inductive ShlexState
  | ws
  | word
  | quoted (q : Char)
  | escWord
  | escQuoted (q : Char)
deriving DecidableEq, Repr

/-- One pass of the `shlex` POSIX lexer over the remaining characters.
`tok` is the token accumulated so far, `acc` the emitted tokens.  `none`
models `shlex.split` raising `ValueError` ("No closing quotation" at end
of input inside a quote, "No escaped character" after a trailing
backslash). -/
def shlexRun : List Char → ShlexState → List Char → List String → Option (List String)
  | [], .ws, _, acc => some acc
  | [], .word, tok, acc => some (acc ++ [⟨tok⟩])
  | [], .quoted _, _, _ => none
  | [], .escWord, _, _ => none
  | [], .escQuoted _, _, _ => none
  | c :: rest, .ws, tok, acc =>
      if shlexSpace c then shlexRun rest .ws tok acc
      else if c = dquote || c = squote then shlexRun rest (.quoted c) tok acc
      else if c = bslash then shlexRun rest .escWord tok acc
      else shlexRun rest .word (tok ++ [c]) acc
  | c :: rest, .word, tok, acc =>
      if shlexSpace c then shlexRun rest .ws [] (acc ++ [⟨tok⟩])
      else if c = dquote || c = squote then shlexRun rest (.quoted c) tok acc
      else if c = bslash then shlexRun rest .escWord tok acc
      else shlexRun rest .word (tok ++ [c]) acc
  | c :: rest, .quoted q, tok, acc =>
      if c = q then shlexRun rest .word tok acc
      else if q = dquote && c = bslash then shlexRun rest (.escQuoted q) tok acc
      else shlexRun rest (.quoted q) (tok ++ [c]) acc
  | c :: rest, .escWord, tok, acc => shlexRun rest .word (tok ++ [c]) acc
  | c :: rest, .escQuoted q, tok, acc =>
      if c = q || c = bslash then shlexRun rest (.quoted q) (tok ++ [c]) acc
      else shlexRun rest (.quoted q) (tok ++ [bslash, c]) acc

/-- Model of Python `shlex.split(query)` as used by
`ChatBot._parse_command_arguments`; `none` models the `ValueError` raised
on unterminated quoting. -/
def shlexSplit (s : String) : Option (List String) :=
  shlexRun s.data .ws [] []

/-- A tool record as returned by `list_tools` (name and description). -/
structure Tool where
  name : String
  description : String
deriving DecidableEq, Repr

/-- A prompt record as returned by `list_prompts`; `arguments` models the
declared argument schema. -/
structure Prompt where
  name : String
  description : String
  arguments : List String
deriving DecidableEq, Repr

/-- A resource record as returned by `list_resources`; `uri` is the
locator used at read time. -/
structure Resource where
  name : String
  description : String
  uri : String
deriving DecidableEq, Repr

/-- The mutable state of a `ChatBot` object: the three per-kind capability
collections (Python lists, appended to by the register methods) and the
`sessions` dict mapping capability names to owning session ids. -/
structure ChatBotState where
  available_resources : List Resource
  available_tools : List Tool
  available_prompts : List Prompt
  sessions : List (String × Nat)
deriving DecidableEq, Repr

/-- The state built by `ChatBot.__init__`: everything empty. -/
def emptyState : ChatBotState :=
  { available_resources := [], available_tools := [], available_prompts := [], sessions := [] }

/-- Python dict assignment `d[k] = v`: replace the value in place if the
key is present, otherwise append the new binding at the end (insertion
order is preserved, as for a Python `dict`). -/
def dictInsert {α : Type} (k : String) (v : α) :
    List (String × α) → List (String × α)
  | [] => [(k, v)]
  | (k₀, v₀) :: rest => if k₀ = k then (k, v) :: rest else (k₀, v₀) :: dictInsert k v rest

/-- Python `d.get(k)` on a dict. -/
def lookupS {α : Type} (k : String) : List (String × α) → Option α
  | [] => none
  | (k₀, v₀) :: rest => if k₀ = k then some v₀ else lookupS k rest

/-- `ChatBot._register_tools`: for each tool in the response, record its
owning session and append it to `available_tools`. -/
def register_tools (resp : List Tool) (sess : Nat) (st : ChatBotState) : ChatBotState :=
  resp.foldl
    (fun s tool =>
      { s with sessions := dictInsert tool.name sess s.sessions,
               available_tools := s.available_tools ++ [tool] })
    st

/-- `ChatBot._register_prompts`: guarded by `if response and
response.prompts` (an empty or absent listing registers nothing), then the
same record-session-and-append loop. -/
def register_prompts (resp : List Prompt) (sess : Nat) (st : ChatBotState) : ChatBotState :=
  if resp = [] then st
  else
    resp.foldl
      (fun s p =>
        { s with sessions := dictInsert p.name sess s.sessions,
                 available_prompts := s.available_prompts ++ [p] })
      st

/-- `ChatBot._register_resources`: guarded by `if response and
response.resources`, then the record-session-and-append loop. -/
def register_resources (resp : List Resource) (sess : Nat) (st : ChatBotState) : ChatBotState :=
  if resp = [] then st
  else
    resp.foldl
      (fun s r =>
        { s with sessions := dictInsert r.name sess s.sessions,
                 available_resources := s.available_resources ++ [r] })
      st

/-- The three capability kinds, in the order the source iterates them. -/
inductive CapKind
  | tools
  | prompts
  | resources
deriving DecidableEq, Repr

/-- Outcome of a single server's three listing calls: each call either
returns a list of records or raises (`Except.error`). -/
structure ServerCaps where
  list_tools : Except String (List Tool)
  list_prompts : Except String (List Prompt)
  list_resources : Except String (List Resource)
deriving DecidableEq, Repr

/-- One iteration of the loop body of
`ChatBot._register_server_capabilities`: call the listing method for the
kind and register the response; an exception is caught, logged and the
kind skipped (`true` in the second component means the error message was
printed). -/
def attemptCapability (caps : ServerCaps) (sess : Nat) (st : ChatBotState) :
    CapKind → ChatBotState × Bool
  | .tools =>
      match caps.list_tools with
      | .ok resp => (register_tools resp sess st, false)
      | .error _ => (st, true)
  | .prompts =>
      match caps.list_prompts with
      | .ok resp => (register_prompts resp sess st, false)
      | .error _ => (st, true)
  | .resources =>
      match caps.list_resources with
      | .ok resp => (register_resources resp sess st, false)
      | .error _ => (st, true)

/-- The fixed iteration order of the `capabilities` list in
`ChatBot._register_server_capabilities`. -/
def capabilityKinds : List CapKind := [.tools, .prompts, .resources]

/-- `ChatBot._register_server_capabilities`: attempt each kind in the
fixed order, collecting which kinds were attempted and whether each
errored. -/
def register_server_capabilities (caps : ServerCaps) (sess : Nat) (st : ChatBotState) :
    ChatBotState × List (CapKind × Bool) :=
  capabilityKinds.foldl
    (fun acc k =>
      let r := attemptCapability caps sess acc.1 k
      (r.1, acc.2 ++ [(k, r.2)]))
    (st, [])

/-- Messages logged during connection. -/
inductive LogMsg
  | connectError (server : String)
  | kindUnsupported (server : String) (k : CapKind)
deriving DecidableEq, Repr

/-- One entry of the server roster: its name, the session id its
connection would get, and `none` when the handshake (transport
establishment or `initialize`) raises. -/
structure ServerEntry where
  name : String
  sess : Nat
  outcome : Option ServerCaps
deriving DecidableEq, Repr

/-- `ChatBot.connect_to_server`: on a handshake failure the exception is
caught and logged and the state is unchanged; on success the server's
capabilities are registered. -/
def connect_to_server (entry : ServerEntry) (st : ChatBotState) : ChatBotState × List LogMsg :=
  match entry.outcome with
  | none => (st, [.connectError entry.name])
  | some caps =>
      let r := register_server_capabilities caps entry.sess st
      (r.1, r.2.filterMap fun kb =>
        if kb.2 then some (.kindUnsupported entry.name kb.1) else none)

/-- `ChatBot.connect_to_servers`: connect to every rostered server in
order; `connect_to_server` never raises, so every entry is attempted. -/
def connect_to_servers (roster : List ServerEntry) (st : ChatBotState) :
    ChatBotState × List LogMsg :=
  roster.foldl
    (fun acc entry =>
      let r := connect_to_server entry acc.1
      (r.1, acc.2 ++ r.2))
    (st, [])

/-- Python `value.split("=", 1)` restricted to the case where `"="`
occurs: `none` when the token has no `=`, otherwise the part before the
first `=` and everything after it. -/
def splitFirstEq : List Char → Option (List Char × List Char)
  | [] => none
  | c :: rest =>
      if c = '=' then some ([], rest)
      else (splitFirstEq rest).map fun p => (c :: p.1, p.2)

/-- `ChatBot._clean_quoted_value`: strip one layer of quotes when the
value starts and ends with the same quote character (`value[1:-1]`). -/
def clean_quoted_value (v : List Char) : List Char :=
  if (v.head? = some dquote ∧ v.getLast? = some dquote) ∨
     (v.head? = some squote ∧ v.getLast? = some squote) then
    (v.drop 1).dropLast
  else v

/-- One iteration of the loop body of `ChatBot._parse_prompt_arguments`:
a token with `=` is split on the first `=` and its cleaned value stored
under the key; a token without `=` is silently ignored. -/
def parseArgToken (args : List (String × String)) (arg : String) : List (String × String) :=
  match splitFirstEq arg.data with
  | some (k, v) => dictInsert ⟨k⟩ ⟨clean_quoted_value v⟩ args
  | none => args

/-- `ChatBot._parse_prompt_arguments`: fold the tokens into a dict. -/
def parse_prompt_arguments (args_list : List String) : List (String × String) :=
  args_list.foldl parseArgToken []

/-- `ChatBot._parse_command_arguments`: `shlex.split` with the
`ValueError` caught (the accompanying print is emitted at the call site
of this model). -/
def parse_command_arguments (query : String) : Option (List String) :=
  shlexSplit query

/-- Python exceptions that the model distinguishes: the `IndexError` from
`[... ][0]` on an empty list, the `TypeError` from `len(None)`, and the
`EOFError` from `input()` at end of input. -/
inductive PyExn
  | indexError
  | typeError
  | eofError
deriving DecidableEq, Repr

/-- The messages the chatbot prints, one constructor per `print` call in
the source (the startup banner is omitted). -/
inductive Msg
  | parseError
  | usage
  | resourceNotFound (name : String)
  | toolNotFound (name : String)
  | responseHeader
  | responseText (t : String)
  | errorReadingResource (e : String)
  | errorCallingTool (e : String)
  | noResources
  | resourcesHeader
  | resourceItem (name description : String)
  | chatLoopError (e : PyExn)
deriving DecidableEq, Repr

/-- Observable events of one loop iteration: a printed message, or an
outbound transport call (with the arguments the source passes). -/
inductive Event
  | printed (m : Msg)
  | calledReadResource (uri : String) (sess : Nat)
  | calledTool (tname : String) (targs : List (String × String)) (sess : Nat)
deriving DecidableEq, Repr

/-- Behaviour of the connected servers during the interactive phase: what
`session.read_resource` and `session.call_tool` return (or raise). -/
structure Env where
  readResourceCall : String → Except String String
  callToolCall : String → List (String × String) → Except String String

/-- `ChatBot.list_resources`: print a notice when empty, otherwise the
header and one line per resource, in registration order. -/
def list_resources (st : ChatBotState) : List Event :=
  if st.available_resources = [] then [.printed .noResources]
  else
    .printed .resourcesHeader ::
      st.available_resources.map fun r => .printed (.resourceItem r.name r.description)

/-- `ChatBot.read_resource`: the list-comprehension lookup indexed with
`[0]` raises `IndexError` when no registered resource has the name; only
then comes the `sessions.get` not-found check; on success the owning
session's `read_resource` is called with the record's `uri` (the parsed
`args` parameter is never used). -/
def read_resource (env : Env) (st : ChatBotState) (resource_name : String)
    (args : List (String × String)) : List Event × Except PyExn Unit :=
  match st.available_resources.filter (fun r => r.name = resource_name) with
  | [] => ([], .error .indexError)
  | r :: _ =>
      match lookupS resource_name st.sessions with
      | none => ([.printed (.resourceNotFound resource_name)], .ok ())
      | some sess =>
          match env.readResourceCall r.uri with
          | .ok text =>
              ([.calledReadResource r.uri sess, .printed .responseHeader,
                .printed (.responseText text)], .ok ())
          | .error e =>
              ([.calledReadResource r.uri sess, .printed (.errorReadingResource e)], .ok ())

/-- `ChatBot.process_query`: look up the fixed tool name
`"execute_gpt4all"` in the sessions dict and call it with the query as
the `"prompt"` argument; call failures are caught and printed. -/
def process_query (env : Env) (st : ChatBotState) (query : String) :
    List Event × Except PyExn Unit :=
  match lookupS "execute_gpt4all" st.sessions with
  | none => ([.printed (.toolNotFound "execute_gpt4all")], .ok ())
  | some sess =>
      match env.callToolCall "execute_gpt4all" [("prompt", query)] with
      | .ok text =>
          ([.calledTool "execute_gpt4all" [("prompt", query)] sess,
            .printed .responseHeader, .printed (.responseText text)], .ok ())
      | .error e =>
          ([.calledTool "execute_gpt4all" [("prompt", query)] sess,
            .printed (.errorCallingTool e)], .ok ())

/-- One iteration of the `while True` body of `ChatBot.chat_loop`.
`line` is `some raw` when `input()` returns a line and `none` when it
raises `EOFError`.  The inner computation mirrors the `try` block (an
`Except.error` is an uncaught Python exception reaching the
`except Exception` handler, which prints and continues); the returned
`Bool` is `true` unless the iteration executed `break`.  A failed
`shlex.split` returns `None` after printing, so the subsequent
`len(parts)` raises `TypeError`. -/
def chat_iteration (env : Env) (st : ChatBotState) (line : Option String) :
    List Event × Bool :=
  let inner : List Event × Except PyExn Bool :=
    match line with
    | none => ([], .error .eofError)
    | some raw =>
        let query := pyStrip raw
        if query.data = [] then ([], .ok true)
        else if pyLower query = "quit" then ([], .ok false)
        else if query.data.head? = some '@' then
          if query = "@resources" then (list_resources st, .ok true)
          else
            match parse_command_arguments query with
            | none => ([.printed .parseError], .error .typeError)
            | some parts =>
                match parts with
                | _ :: resource_name :: rest =>
                    let args := parse_prompt_arguments rest
                    let r := read_resource env st resource_name args
                    (r.1, r.2.map fun _ => true)
                | _ => ([.printed .usage], .ok true)
        else
          let r := process_query env st query
          (r.1, r.2.map fun _ => true)
  match inner with
  | (evs, .ok c) => (evs, c)
  | (evs, .error e) => (evs ++ [.printed (.chatLoopError e)], true)

/-- Run `ChatBot.chat_loop` over a finite prefix of the input stream; the
loop stops early only when an iteration executed `break`.  The chatbot
state is never mutated during the interactive phase. -/
def chat_loop_run (env : Env) (st : ChatBotState) : List (Option String) → List Event
  | [] => []
  | l :: rest =>
      let r := chat_iteration env st l
      if r.2 then r.1 ++ chat_loop_run env st rest else r.1

/-- A single registration step, the common loop body of the three
`_register_*` methods: record the owning session under the capability's
name and append the record to its kind's collection. -/
inductive RegEvent
  | tool (t : Tool) (sess : Nat)
  | prompt (p : Prompt) (sess : Nat)
  | res (r : Resource) (sess : Nat)
deriving DecidableEq, Repr

/-- The capability name a registration step registers. -/
def regName : RegEvent → String
  | .tool t _ => t.name
  | .prompt p _ => p.name
  | .res r _ => r.name

/-- The session a registration step records. -/
def regSess : RegEvent → Nat
  | .tool _ s => s
  | .prompt _ s => s
  | .res _ s => s

/-- Effect of a single registration step on the chatbot state. -/
def regStep (st : ChatBotState) : RegEvent → ChatBotState
  | .tool t sess =>
      { st with sessions := dictInsert t.name sess st.sessions,
                available_tools := st.available_tools ++ [t] }
  | .prompt p sess =>
      { st with sessions := dictInsert p.name sess st.sessions,
                available_prompts := st.available_prompts ++ [p] }
  | .res r sess =>
      { st with sessions := dictInsert r.name sess st.sessions,
                available_resources := st.available_resources ++ [r] }

/-- An arbitrary sequence of registration steps, as performed during
startup by the `_register_*` methods. -/
def runReg (evs : List RegEvent) (st : ChatBotState) : ChatBotState :=
  evs.foldl regStep st

/-- The session recorded by the last registration of name `n` in the
sequence, if any. -/
def lastRegSession (n : String) : List RegEvent → Option Nat
  | [] => none
  | e :: rest =>
      match lastRegSession n rest with
      | some s => some s
      | none => if regName e = n then some (regSess e) else none

/-- `true` when the listing call for the kind raises. -/
def kindErrors (caps : ServerCaps) : CapKind → Bool
  | .tools => match caps.list_tools with | .error _ => true | .ok _ => false
  | .prompts => match caps.list_prompts with | .error _ => true | .ok _ => false
  | .resources => match caps.list_resources with | .error _ => true | .ok _ => false

/-- Keys of the sessions dict. -/
def sessionNames (st : ChatBotState) : List String :=
  st.sessions.map Prod.fst

/-- Every record the kind's listing declared is present in its collection
and owns an entry in the sessions dict. -/
def kindFullyRegistered (caps : ServerCaps) (st : ChatBotState) : CapKind → Prop
  | .tools => ∀ resp, caps.list_tools = .ok resp →
      ∀ t ∈ resp, t ∈ st.available_tools ∧ t.name ∈ sessionNames st
  | .prompts => ∀ resp, caps.list_prompts = .ok resp →
      ∀ p ∈ resp, p ∈ st.available_prompts ∧ p.name ∈ sessionNames st
  | .resources => ∀ resp, caps.list_resources = .ok resp →
      ∀ r ∈ resp, r ∈ st.available_resources ∧ r.name ∈ sessionNames st

/-- The registry-to-sessions invariant of §3 of the design: every record
present in any per-kind collection has its name as a key of the sessions
dict. -/
def sessionInvariant (st : ChatBotState) : Prop :=
  (∀ t ∈ st.available_tools, t.name ∈ sessionNames st) ∧
  (∀ p ∈ st.available_prompts, p.name ∈ sessionNames st) ∧
  (∀ r ∈ st.available_resources, r.name ∈ sessionNames st)

/-- State extension: everything registered in `s` is still registered in
`t` (records by membership, sessions by key). -/
def stateLE (s t : ChatBotState) : Prop :=
  (∀ x ∈ s.available_tools, x ∈ t.available_tools) ∧
  (∀ x ∈ s.available_prompts, x ∈ t.available_prompts) ∧
  (∀ x ∈ s.available_resources, x ∈ t.available_resources) ∧
  (∀ n ∈ sessionNames s, n ∈ sessionNames t)

/-- Number of records bearing name `n` across the three collections. -/
def recordCount (n : String) (st : ChatBotState) : Nat :=
  (st.available_tools.filter fun t => t.name = n).length +
  (st.available_prompts.filter fun p => p.name = n).length +
  (st.available_resources.filter fun r => r.name = n).length

/-- `true` when the event is an outbound tool call. -/
def isToolCall : Event → Bool
  | .calledTool _ _ _ => true
  | _ => false

/-- `true` when the event prints the resource-not-found message. -/
def isNotFoundMsg : Event → Bool
  | .printed (.resourceNotFound _) => true
  | _ => false

/-- A small registry as left by a successful startup: one resource and
the default tool, both owned by session 7. -/
def demoState : ChatBotState :=
  { available_resources := [⟨"report", "quarterly report", "api://report"⟩],
    available_tools := [⟨"execute_gpt4all", "llm tool"⟩],
    available_prompts := [],
    sessions := [("execute_gpt4all", 7), ("report", 7)] }

/-- Servers that answer every interactive-phase call successfully. -/
def demoEnv : Env :=
  { readResourceCall := fun _ => .ok "contents",
    callToolCall := fun _ _ => .ok "generated" }

section DictLemmas

variable {α : Type}

lemma lookupS_dictInsert_self (k : String) (v : α) (d : List (String × α)) :
    lookupS k (dictInsert k v d) = some v := by
  induction d with
  | nil => simp [dictInsert, lookupS]
  | cons hd tl ih =>
      obtain ⟨k₀, v₀⟩ := hd
      by_cases h : k₀ = k <;> simp [dictInsert, lookupS, h, ih]

lemma lookupS_dictInsert_ne (k' k : String) (v : α) (d : List (String × α))
    (h : k' ≠ k) : lookupS k' (dictInsert k v d) = lookupS k' d := by
  have h' : k ≠ k' := Ne.symm h
  induction d with
  | nil => simp [dictInsert, lookupS, h']
  | cons hd tl ih =>
      obtain ⟨k₀, v₀⟩ := hd
      by_cases h₀ : k₀ = k
      · subst h₀
        simp [dictInsert, lookupS, h']
      · by_cases h₁ : k₀ = k' <;> simp [dictInsert, lookupS, h₀, h₁, h, ih]

lemma keys_dictInsert (k : String) (v : α) (d : List (String × α)) :
    (dictInsert k v d).map Prod.fst =
      if k ∈ d.map Prod.fst then d.map Prod.fst else d.map Prod.fst ++ [k] := by
  induction d with
  | nil => simp [dictInsert]
  | cons hd tl ih =>
      obtain ⟨k₀, v₀⟩ := hd
      by_cases h : k₀ = k
      · subst h
        simp [dictInsert]
      · have hne : ¬ k = k₀ := fun hh => h hh.symm
        by_cases hm : k ∈ tl.map Prod.fst <;>
          simp [dictInsert, h, hm, hne, ih]

lemma mem_keys_dictInsert_self (k : String) (v : α) (d : List (String × α)) :
    k ∈ (dictInsert k v d).map Prod.fst := by
  rw [keys_dictInsert]
  by_cases hm : k ∈ d.map Prod.fst <;> simp [hm]

lemma mem_keys_dictInsert_of_mem (k' k : String) (v : α) (d : List (String × α))
    (h : k' ∈ d.map Prod.fst) : k' ∈ (dictInsert k v d).map Prod.fst := by
  rw [keys_dictInsert]
  by_cases hm : k ∈ d.map Prod.fst <;> simp [hm, h]

lemma nodup_keys_dictInsert (k : String) (v : α) (d : List (String × α))
    (h : (d.map Prod.fst).Nodup) : ((dictInsert k v d).map Prod.fst).Nodup := by
  rw [keys_dictInsert]
  by_cases hm : k ∈ d.map Prod.fst
  · simpa [hm] using h
  · simp only [hm, if_false]
    rw [List.nodup_append]
    refine ⟨h, List.nodup_singleton k, ?_⟩
    intro a ha hb
    simp only [List.mem_singleton] at hb
    subst hb
    exact hm ha

lemma mem_keys_of_lookupS (k : String) (v : α) (d : List (String × α))
    (h : lookupS k d = some v) : k ∈ d.map Prod.fst := by
  induction d with
  | nil => simp [lookupS] at h
  | cons hd tl ih =>
      obtain ⟨k₀, v₀⟩ := hd
      by_cases h₀ : k₀ = k
      · subst h₀; simp
      · simp only [lookupS, h₀, if_false] at h
        simpa using Or.inr (ih h)

lemma dictInsert_of_not_mem (k : String) (v : α) (d : List (String × α))
    (h : k ∉ d.map Prod.fst) : dictInsert k v d = d ++ [(k, v)] := by
  induction d with
  | nil => simp [dictInsert]
  | cons hd tl ih =>
      obtain ⟨k₀, v₀⟩ := hd
      simp only [List.map_cons, List.mem_cons, not_or] at h
      have : k₀ ≠ k := fun hh => h.1 hh.symm
      simp [dictInsert, this, ih h.2]

end DictLemmas

lemma stateLE_refl (st : ChatBotState) : stateLE st st :=
  ⟨fun _ h => h, fun _ h => h, fun _ h => h, fun _ h => h⟩

lemma stateLE_trans {a b c : ChatBotState} (h₁ : stateLE a b) (h₂ : stateLE b c) :
    stateLE a c :=
  ⟨fun x hx => h₂.1 x (h₁.1 x hx), fun x hx => h₂.2.1 x (h₁.2.1 x hx),
   fun x hx => h₂.2.2.1 x (h₁.2.2.1 x hx), fun n hn => h₂.2.2.2 n (h₁.2.2.2 n hn)⟩

lemma regStep_le (st : ChatBotState) (e : RegEvent) : stateLE st (regStep st e) := by
  cases e with
  | tool t sess =>
      exact ⟨fun x hx => by simp [regStep, hx], fun x hx => hx, fun x hx => hx,
        fun n hn => mem_keys_dictInsert_of_mem n t.name sess st.sessions hn⟩
  | prompt p sess =>
      exact ⟨fun x hx => hx, fun x hx => by simp [regStep, hx], fun x hx => hx,
        fun n hn => mem_keys_dictInsert_of_mem n p.name sess st.sessions hn⟩
  | res r sess =>
      exact ⟨fun x hx => hx, fun x hx => hx, fun x hx => by simp [regStep, hx],
        fun n hn => mem_keys_dictInsert_of_mem n r.name sess st.sessions hn⟩

lemma runReg_le (evs : List RegEvent) (st : ChatBotState) :
    stateLE st (runReg evs st) := by
  induction evs generalizing st with
  | nil => exact stateLE_refl st
  | cons e rest ih => exact stateLE_trans (regStep_le st e) (ih (regStep st e))

/-- The record and session entry a registration step installs. -/
def regDone (e : RegEvent) (st : ChatBotState) : Prop :=
  regName e ∈ sessionNames st ∧
  match e with
  | .tool t _ => t ∈ st.available_tools
  | .prompt p _ => p ∈ st.available_prompts
  | .res r _ => r ∈ st.available_resources

lemma regDone_regStep_self (st : ChatBotState) (e : RegEvent) :
    regDone e (regStep st e) := by
  cases e with
  | tool t sess =>
      exact ⟨mem_keys_dictInsert_self t.name sess st.sessions, by simp [regStep]⟩
  | prompt p sess =>
      exact ⟨mem_keys_dictInsert_self p.name sess st.sessions, by simp [regStep]⟩
  | res r sess =>
      exact ⟨mem_keys_dictInsert_self r.name sess st.sessions, by simp [regStep]⟩

lemma regDone_mono {e : RegEvent} {s t : ChatBotState}
    (h : regDone e s) (hle : stateLE s t) : regDone e t := by
  cases e with
  | tool x sess => exact ⟨hle.2.2.2 _ h.1, hle.1 x h.2⟩
  | prompt x sess => exact ⟨hle.2.2.2 _ h.1, hle.2.1 x h.2⟩
  | res x sess => exact ⟨hle.2.2.2 _ h.1, hle.2.2.1 x h.2⟩

lemma runReg_registers (evs : List RegEvent) :
    ∀ (st : ChatBotState) (e : RegEvent), e ∈ evs → regDone e (runReg evs st) := by
  induction evs with
  | nil => intro _ _ h; cases h
  | cons e₀ rest ih =>
      intro st e h
      rcases List.mem_cons.mp h with h₀ | h₀
      · subst h₀
        exact regDone_mono (regDone_regStep_self st e)
          (runReg_le rest (regStep st e))
      · exact ih (regStep st e₀) e h₀

lemma register_tools_eq_runReg (resp : List Tool) (sess : Nat) (st : ChatBotState) :
    register_tools resp sess st = runReg (resp.map fun t => RegEvent.tool t sess) st := by
  rw [runReg, List.foldl_map]
  rfl

lemma register_prompts_eq_runReg (resp : List Prompt) (sess : Nat) (st : ChatBotState) :
    register_prompts resp sess st =
      runReg (resp.map fun p => RegEvent.prompt p sess) st := by
  cases resp with
  | nil => rfl
  | cons p rest =>
      rw [runReg, List.foldl_map]
      simp only [register_prompts, reduceCtorEq, if_false]
      rfl

lemma register_resources_eq_runReg (resp : List Resource) (sess : Nat) (st : ChatBotState) :
    register_resources resp sess st =
      runReg (resp.map fun r => RegEvent.res r sess) st := by
  cases resp with
  | nil => rfl
  | cons r rest =>
      rw [runReg, List.foldl_map]
      simp only [register_resources, reduceCtorEq, if_false]
      rfl

lemma register_tools_le (resp : List Tool) (sess : Nat) (st : ChatBotState) :
    stateLE st (register_tools resp sess st) := by
  rw [register_tools_eq_runReg]; exact runReg_le _ st

lemma register_prompts_le (resp : List Prompt) (sess : Nat) (st : ChatBotState) :
    stateLE st (register_prompts resp sess st) := by
  rw [register_prompts_eq_runReg]; exact runReg_le _ st

lemma register_resources_le (resp : List Resource) (sess : Nat) (st : ChatBotState) :
    stateLE st (register_resources resp sess st) := by
  rw [register_resources_eq_runReg]; exact runReg_le _ st

lemma register_tools_mem (resp : List Tool) (sess : Nat) (st : ChatBotState)
    (t : Tool) (h : t ∈ resp) :
    t ∈ (register_tools resp sess st).available_tools ∧
      t.name ∈ sessionNames (register_tools resp sess st) := by
  rw [register_tools_eq_runReg]
  have := runReg_registers (resp.map fun x => RegEvent.tool x sess) st
    (.tool t sess) (List.mem_map_of_mem _ h)
  exact ⟨this.2, this.1⟩

lemma register_prompts_mem (resp : List Prompt) (sess : Nat) (st : ChatBotState)
    (p : Prompt) (h : p ∈ resp) :
    p ∈ (register_prompts resp sess st).available_prompts ∧
      p.name ∈ sessionNames (register_prompts resp sess st) := by
  rw [register_prompts_eq_runReg]
  have := runReg_registers (resp.map fun x => RegEvent.prompt x sess) st
    (.prompt p sess) (List.mem_map_of_mem _ h)
  exact ⟨this.2, this.1⟩

lemma register_resources_mem (resp : List Resource) (sess : Nat) (st : ChatBotState)
    (r : Resource) (h : r ∈ resp) :
    r ∈ (register_resources resp sess st).available_resources ∧
      r.name ∈ sessionNames (register_resources resp sess st) := by
  rw [register_resources_eq_runReg]
  have := runReg_registers (resp.map fun x => RegEvent.res x sess) st
    (.res r sess) (List.mem_map_of_mem _ h)
  exact ⟨this.2, this.1⟩

lemma attemptCapability_le (caps : ServerCaps) (sess : Nat) (st : ChatBotState)
    (k : CapKind) : stateLE st (attemptCapability caps sess st k).1 := by
  cases k with
  | tools =>
      cases h : caps.list_tools with
      | ok resp => simp only [attemptCapability, h]; exact register_tools_le resp sess st
      | error e => simp only [attemptCapability, h]; exact stateLE_refl st
  | prompts =>
      cases h : caps.list_prompts with
      | ok resp => simp only [attemptCapability, h]; exact register_prompts_le resp sess st
      | error e => simp only [attemptCapability, h]; exact stateLE_refl st
  | resources =>
      cases h : caps.list_resources with
      | ok resp => simp only [attemptCapability, h]; exact register_resources_le resp sess st
      | error e => simp only [attemptCapability, h]; exact stateLE_refl st

/-- Unfolding of `register_server_capabilities` into the three attempts
in their fixed order. -/
lemma rsc_fst (caps : ServerCaps) (sess : Nat) (st : ChatBotState) :
    (register_server_capabilities caps sess st).1 =
      (attemptCapability caps sess
        (attemptCapability caps sess
          (attemptCapability caps sess st .tools).1 .prompts).1 .resources).1 := rfl

lemma rsc_le (caps : ServerCaps) (sess : Nat) (st : ChatBotState) :
    stateLE st (register_server_capabilities caps sess st).1 := by
  rw [rsc_fst]
  exact stateLE_trans (attemptCapability_le caps sess st .tools)
    (stateLE_trans (attemptCapability_le caps sess _ .prompts)
      (attemptCapability_le caps sess _ .resources))

lemma kindFullyRegistered_mono {caps : ServerCaps} {s t : ChatBotState} {k : CapKind}
    (h : kindFullyRegistered caps s k) (hle : stateLE s t) :
    kindFullyRegistered caps t k := by
  cases k with
  | tools =>
      intro resp hresp x hx
      obtain ⟨h₁, h₂⟩ := h resp hresp x hx
      exact ⟨hle.1 x h₁, hle.2.2.2 _ h₂⟩
  | prompts =>
      intro resp hresp x hx
      obtain ⟨h₁, h₂⟩ := h resp hresp x hx
      exact ⟨hle.2.1 x h₁, hle.2.2.2 _ h₂⟩
  | resources =>
      intro resp hresp x hx
      obtain ⟨h₁, h₂⟩ := h resp hresp x hx
      exact ⟨hle.2.2.1 x h₁, hle.2.2.2 _ h₂⟩

/-- Any kind whose listing call succeeds ends up fully registered after
`register_server_capabilities`, regardless of the other kinds' outcomes. -/
lemma rsc_registers (caps : ServerCaps) (sess : Nat) (st : ChatBotState)
    (k : CapKind) (hk : kindErrors caps k = false) :
    kindFullyRegistered caps (register_server_capabilities caps sess st).1 k := by
  cases k with
  | tools =>
      intro resp hresp t ht
      have h₁ : (attemptCapability caps sess st .tools).1 = register_tools resp sess st := by
        simp [attemptCapability, hresp]
      have hdone := register_tools_mem resp sess st t ht
      have hle : stateLE (register_tools resp sess st)
          (register_server_capabilities caps sess st).1 := by
        rw [rsc_fst, ← h₁]
        exact stateLE_trans (attemptCapability_le caps sess _ .prompts)
          (attemptCapability_le caps sess _ .resources)
      exact ⟨hle.1 t hdone.1, hle.2.2.2 _ hdone.2⟩
  | prompts =>
      intro resp hresp p hp
      have h₁ : (attemptCapability caps sess (attemptCapability caps sess st .tools).1
          .prompts).1 = register_prompts resp sess (attemptCapability caps sess st .tools).1 := by
        simp [attemptCapability, hresp]
      have hdone := register_prompts_mem resp sess (attemptCapability caps sess st .tools).1 p hp
      have hle : stateLE (register_prompts resp sess (attemptCapability caps sess st .tools).1)
          (register_server_capabilities caps sess st).1 := by
        rw [rsc_fst, ← h₁]
        exact attemptCapability_le caps sess _ .resources
      exact ⟨hle.2.1 p hdone.1, hle.2.2.2 _ hdone.2⟩
  | resources =>
      intro resp hresp r hr
      have h₁ : (attemptCapability caps sess
          (attemptCapability caps sess (attemptCapability caps sess st .tools).1 .prompts).1
          .resources).1 =
          register_resources resp sess
            (attemptCapability caps sess
              (attemptCapability caps sess st .tools).1 .prompts).1 := by
        simp [attemptCapability, hresp]
      have hdone := register_resources_mem resp sess
        (attemptCapability caps sess (attemptCapability caps sess st .tools).1 .prompts).1 r hr
      rw [rsc_fst, h₁]
      exact hdone

lemma cts_aux (roster : List ServerEntry) :
    ∀ (st : ChatBotState) (lg : List LogMsg),
      roster.foldl
        (fun acc entry =>
          let r := connect_to_server entry acc.1
          (r.1, acc.2 ++ r.2)) (st, lg) =
      ((connect_to_servers roster st).1, lg ++ (connect_to_servers roster st).2) := by
  induction roster with
  | nil => intro st lg; simp [connect_to_servers]
  | cons e rest ih =>
      intro st lg
      simp only [connect_to_servers, List.foldl_cons]
      rw [ih (connect_to_server e st).1 (lg ++ (connect_to_server e st).2),
        ih (connect_to_server e st).1 ([] ++ (connect_to_server e st).2)]
      simp [List.append_assoc]

/-- Peeling one roster entry off `connect_to_servers`. -/
lemma cts_cons (e : ServerEntry) (rest : List ServerEntry) (st : ChatBotState) :
    connect_to_servers (e :: rest) st =
      ((connect_to_servers rest (connect_to_server e st).1).1,
       (connect_to_server e st).2 ++
         (connect_to_servers rest (connect_to_server e st).1).2) := by
  simp only [connect_to_servers, List.foldl_cons]
  rw [cts_aux rest (connect_to_server e st).1 ([] ++ (connect_to_server e st).2)]
  simp only [List.nil_append, Prod.mk.injEq]
  exact ⟨rfl, rfl⟩

lemma connect_to_server_le (e : ServerEntry) (st : ChatBotState) :
    stateLE st (connect_to_server e st).1 := by
  cases h : e.outcome with
  | none => simp only [connect_to_server, h]; exact stateLE_refl st
  | some caps => simp only [connect_to_server, h]; exact rsc_le caps e.sess st

lemma cts_le (roster : List ServerEntry) :
    ∀ st : ChatBotState, stateLE st (connect_to_servers roster st).1 := by
  induction roster with
  | nil => intro st; exact stateLE_refl st
  | cons e rest ih =>
      intro st
      rw [cts_cons]
      exact stateLE_trans (connect_to_server_le e st) (ih (connect_to_server e st).1)

lemma cts_log_mem (roster : List ServerEntry) :
    ∀ (st : ChatBotState) (iname : String) (isess : Nat),
      ServerEntry.mk iname isess none ∈ roster →
      LogMsg.connectError iname ∈ (connect_to_servers roster st).2 := by
  induction roster with
  | nil => intro _ _ _ h; cases h
  | cons e rest ih =>
      intro st iname isess h
      rw [cts_cons]
      rcases List.mem_cons.mp h with h₀ | h₀
      · subst h₀
        simp [connect_to_server]
      · exact List.mem_append_right _ (ih (connect_to_server e st).1 iname isess h₀)

lemma cts_registers (roster : List ServerEntry) :
    ∀ (st : ChatBotState) (jname : String) (jsess : Nat) (caps : ServerCaps),
      ServerEntry.mk jname jsess (some caps) ∈ roster →
      ∀ k, kindErrors caps k = false →
        kindFullyRegistered caps (connect_to_servers roster st).1 k := by
  induction roster with
  | nil => intro _ _ _ _ h; cases h
  | cons e rest ih =>
      intro st jname jsess caps h k hk
      rw [cts_cons]
      rcases List.mem_cons.mp h with h₀ | h₀
      · subst h₀
        have hreg : kindFullyRegistered caps (connect_to_server
            (ServerEntry.mk jname jsess (some caps)) st).1 k := by
          simp only [connect_to_server]
          exact rsc_registers caps jsess st k hk
        exact kindFullyRegistered_mono hreg (cts_le rest _)
      · exact ih (connect_to_server e st).1 jname jsess caps h₀ k hk

lemma lookupS_regStep (n : String) (st : ChatBotState) (e : RegEvent) :
    lookupS n (regStep st e).sessions =
      if regName e = n then some (regSess e) else lookupS n st.sessions := by
  cases e with
  | tool t sess =>
      by_cases h : t.name = n
      · subst h
        simp [regStep, regName, regSess, lookupS_dictInsert_self]
      · simp [regStep, regName, h,
          lookupS_dictInsert_ne n t.name sess st.sessions fun hh => h hh.symm]
  | prompt p sess =>
      by_cases h : p.name = n
      · subst h
        simp [regStep, regName, regSess, lookupS_dictInsert_self]
      · simp [regStep, regName, h,
          lookupS_dictInsert_ne n p.name sess st.sessions fun hh => h hh.symm]
  | res r sess =>
      by_cases h : r.name = n
      · subst h
        simp [regStep, regName, regSess, lookupS_dictInsert_self]
      · simp [regStep, regName, h,
          lookupS_dictInsert_ne n r.name sess st.sessions fun hh => h hh.symm]

lemma runReg_lookup_of_lastRegSession_none (n : String) (evs : List RegEvent) :
    ∀ st : ChatBotState, lastRegSession n evs = none →
      lookupS n (runReg evs st).sessions = lookupS n st.sessions := by
  induction evs with
  | nil => intro st _; rfl
  | cons e rest ih =>
      intro st h
      simp only [lastRegSession] at h
      rcases h₀ : lastRegSession n rest with _ | s
      · rw [h₀] at h
        have hname : regName e ≠ n := by
          by_cases hn : regName e = n
          · simp [hn] at h
          · exact hn
        have : runReg (e :: rest) st = runReg rest (regStep st e) := rfl
        rw [this, ih (regStep st e) h₀, lookupS_regStep, if_neg hname]
      · rw [h₀] at h; cases h

lemma runReg_lookup_of_lastRegSession (n : String) (sess : Nat) (evs : List RegEvent) :
    ∀ st : ChatBotState, lastRegSession n evs = some sess →
      lookupS n (runReg evs st).sessions = some sess := by
  induction evs with
  | nil => intro st h; cases h
  | cons e rest ih =>
      intro st h
      simp only [lastRegSession] at h
      have hstep : runReg (e :: rest) st = runReg rest (regStep st e) := rfl
      rcases h₀ : lastRegSession n rest with _ | s
      · rw [h₀] at h
        have hif : (if regName e = n then some (regSess e) else none) = some sess := h
        by_cases hn : regName e = n
        · rw [if_pos hn] at hif
          rw [hstep, runReg_lookup_of_lastRegSession_none n rest (regStep st e) h₀,
            lookupS_regStep, if_pos hn]
          exact hif
        · rw [if_neg hn] at hif; cases hif
      · rw [h₀] at h
        have : s = sess := by injection h
        subst this
        rw [hstep]
        exact ih (regStep st e) h₀

lemma nodup_sessionNames_regStep (st : ChatBotState) (e : RegEvent)
    (h : (sessionNames st).Nodup) : (sessionNames (regStep st e)).Nodup := by
  cases e with
  | tool t sess => exact nodup_keys_dictInsert t.name sess st.sessions h
  | prompt p sess => exact nodup_keys_dictInsert p.name sess st.sessions h
  | res r sess => exact nodup_keys_dictInsert r.name sess st.sessions h

lemma nodup_sessionNames_runReg (evs : List RegEvent) :
    ∀ st : ChatBotState, (sessionNames st).Nodup →
      (sessionNames (runReg evs st)).Nodup := by
  induction evs with
  | nil => intro st h; exact h
  | cons e rest ih =>
      intro st h
      exact ih (regStep st e) (nodup_sessionNames_regStep st e h)

lemma recordCount_regStep (n : String) (st : ChatBotState) (e : RegEvent) :
    recordCount n (regStep st e) =
      recordCount n st + (if regName e = n then 1 else 0) := by
  cases e with
  | tool t sess =>
      by_cases h : t.name = n <;>
        simp [recordCount, regStep, regName, List.filter_append, h] <;> omega
  | prompt p sess =>
      by_cases h : p.name = n <;>
        simp [recordCount, regStep, regName, List.filter_append, h] <;> omega
  | res r sess =>
      by_cases h : r.name = n <;>
        simp [recordCount, regStep, regName, List.filter_append, h] <;> omega

lemma recordCount_runReg (n : String) (evs : List RegEvent) :
    ∀ st : ChatBotState,
      recordCount n (runReg evs st) =
        recordCount n st + evs.countP (fun e => regName e = n) := by
  induction evs with
  | nil => intro st; simp [runReg]
  | cons e rest ih =>
      intro st
      have hstep : runReg (e :: rest) st = runReg rest (regStep st e) := rfl
      rw [hstep, ih (regStep st e), recordCount_regStep, List.countP_cons]
      by_cases h : regName e = n <;> simp [h] <;> omega

lemma sessionInvariant_regStep (st : ChatBotState) (e : RegEvent)
    (h : sessionInvariant st) : sessionInvariant (regStep st e) := by
  have hle := regStep_le st e
  have hself := regDone_regStep_self st e
  cases e with
  | tool t sess =>
      refine ⟨?_, ?_, ?_⟩
      · intro x hx
        rcases List.mem_append.mp hx with hx₀ | hx₀
        · exact hle.2.2.2 _ (h.1 x hx₀)
        · simp only [List.mem_singleton] at hx₀
          subst hx₀
          exact hself.1
      · intro x hx
        exact hle.2.2.2 _ (h.2.1 x hx)
      · intro x hx
        exact hle.2.2.2 _ (h.2.2 x hx)
  | prompt p sess =>
      refine ⟨?_, ?_, ?_⟩
      · intro x hx
        exact hle.2.2.2 _ (h.1 x hx)
      · intro x hx
        rcases List.mem_append.mp hx with hx₀ | hx₀
        · exact hle.2.2.2 _ (h.2.1 x hx₀)
        · simp only [List.mem_singleton] at hx₀
          subst hx₀
          exact hself.1
      · intro x hx
        exact hle.2.2.2 _ (h.2.2 x hx)
  | res r sess =>
      refine ⟨?_, ?_, ?_⟩
      · intro x hx
        exact hle.2.2.2 _ (h.1 x hx)
      · intro x hx
        exact hle.2.2.2 _ (h.2.1 x hx)
      · intro x hx
        rcases List.mem_append.mp hx with hx₀ | hx₀
        · exact hle.2.2.2 _ (h.2.2 x hx₀)
        · simp only [List.mem_singleton] at hx₀
          subst hx₀
          exact hself.1

lemma sessionInvariant_runReg (evs : List RegEvent) :
    ∀ st : ChatBotState, sessionInvariant st → sessionInvariant (runReg evs st) := by
  induction evs with
  | nil => intro st h; exact h
  | cons e rest ih =>
      intro st h
      exact ih (regStep st e) (sessionInvariant_regStep st e h)

lemma splitFirstEq_append (k v : List Char) (h : '=' ∉ k) :
    splitFirstEq (k ++ '=' :: v) = some (k, v) := by
  induction k with
  | nil => simp [splitFirstEq]
  | cons c rest ih =>
      simp only [List.mem_cons, not_or] at h
      have hc : ¬ c = '=' := fun hh => h.1 hh.symm
      simp [splitFirstEq, hc, ih h.2]

lemma splitFirstEq_of_not_mem (t : List Char) (h : '=' ∉ t) :
    splitFirstEq t = none := by
  induction t with
  | nil => rfl
  | cons c rest ih =>
      simp only [List.mem_cons, not_or] at h
      have hc : ¬ c = '=' := fun hh => h.1 hh.symm
      simp [splitFirstEq, hc, ih h.2]

lemma clean_quoted_value_wrap (q : Char) (inner : List Char)
    (h : q = dquote ∨ q = squote) :
    clean_quoted_value (q :: (inner ++ [q])) = inner := by
  have hg : (q :: (inner ++ [q])).getLast? = some q := by
    rw [← List.cons_append]
    exact List.getLast?_concat _
  rcases h with h | h <;> subst h <;>
    simp [clean_quoted_value, hg, List.dropLast_concat]

lemma process_query_snd (env : Env) (st : ChatBotState) (q : String) :
    (process_query env st q).2 = Except.ok () := by
  cases h : lookupS "execute_gpt4all" st.sessions with
  | none => simp [process_query, h]
  | some sess =>
      cases h₂ : env.callToolCall "execute_gpt4all" [("prompt", q)] with
      | ok t => simp [process_query, h, h₂]
      | error e => simp [process_query, h, h₂]

lemma process_query_head (env : Env) (st : ChatBotState) (q : String) (sess : Nat)
    (h : lookupS "execute_gpt4all" st.sessions = some sess) :
    (process_query env st q).1.head? =
      some (.calledTool "execute_gpt4all" [("prompt", q)] sess) := by
  cases h₂ : env.callToolCall "execute_gpt4all" [("prompt", q)] with
  | ok t => simp [process_query, h, h₂]
  | error e => simp [process_query, h, h₂]

lemma chat_loop_run_cons_of_continue (env : Env) (st : ChatBotState)
    (l : Option String) (rest : List (Option String))
    (h : (chat_iteration env st l).2 = true) :
    chat_loop_run env st (l :: rest) =
      (chat_iteration env st l).1 ++ chat_loop_run env st rest := by
  simp [chat_loop_run, h]

/-- A non-empty line that is not `quit` and does not start with `@` goes
to `process_query`, and the iteration continues. -/
lemma chat_iteration_default (env : Env) (st : ChatBotState) (raw : String)
    (h0 : (pyStrip raw).data ≠ [])
    (h1 : pyLower (pyStrip raw) ≠ "quit")
    (h2 : (pyStrip raw).data.head? ≠ some '@') :
    chat_iteration env st (some raw) = ((process_query env st (pyStrip raw)).1, true) := by
  have hq := process_query_snd env st (pyStrip raw)
  simp only [chat_iteration, if_neg h0, if_neg h1, if_neg h2, hq, Except.map]

/-- An `@`-line other than `@resources` whose tokenization fails prints
the parse-error message, raises `TypeError` on `len(None)` (caught by the
loop), and the iteration continues. -/
lemma chat_iteration_at_parse_error (env : Env) (st : ChatBotState) (raw : String)
    (h1 : (pyStrip raw).data.head? = some '@')
    (h2 : pyStrip raw ≠ "@resources")
    (h4 : parse_command_arguments (pyStrip raw) = none) :
    chat_iteration env st (some raw) =
      ([.printed .parseError, .printed (.chatLoopError .typeError)], true) := by
  have h0 : (pyStrip raw).data ≠ [] := by
    intro hnil
    rw [hnil] at h1
    cases h1
  have hquit : pyLower (pyStrip raw) ≠ "quit" := by
    intro hq
    have hh : (pyLower (pyStrip raw)).data.head? = some 'q' := by rw [hq]; rfl
    rw [pyLower] at hh
    rw [List.head?_map, h1] at hh
    exact absurd hh (by decide)
  simp only [chat_iteration, if_neg h0, if_neg hquit, if_pos h1, if_neg h2, h4]
  rfl

/-- All listing outcomes of a healthy demo server. -/
def capsGood : ServerCaps :=
  ⟨.ok [⟨"t1", "a tool"⟩], .ok [], .ok [⟨"r1", "a res", "api://r1"⟩]⟩

/-- A server whose prompts listing raises. -/
def capsPartial : ServerCaps :=
  ⟨.ok [⟨"t1", "a tool"⟩], .error "unsupported", .ok [⟨"r1", "a res", "api://r1"⟩]⟩

/-- A roster with one dead server followed by one healthy server. -/
def rosterW : List ServerEntry :=
  [⟨"bad", 1, none⟩, ⟨"good", 2, some capsGood⟩]

/-- C1: `@resource missing` with an unregistered name does not print the
not-found message: the `[... ][0]` lookup raises `IndexError` before the
not-found check, so the generic chat-loop error is printed instead; the
loop does stay Running and the next valid command is still processed. -/
theorem c1_missing_resource_index_error :
    chat_loop_run demoEnv demoState [some "@resource missing", some "hello"] =
      [.printed (.chatLoopError .indexError),
       .calledTool "execute_gpt4all" [("prompt", "hello")] 7,
       .printed .responseHeader, .printed (.responseText "generated")] ∧
    (chat_iteration demoEnv demoState (some "@resource missing")).1.countP isNotFoundMsg = 0 :=
  ⟨by decide, by decide⟩

/-- C2 counterexample: registering the name "dup" twice leaves two
records with that name in `available_tools` (the register methods append
records, they do not overwrite), so the Registry does not hold exactly
one entry for the name; only the sessions dict holds one. -/
theorem c2_duplicate_name_two_records :
    ((register_tools [⟨"dup", "second"⟩] 2
        (register_tools [⟨"dup", "first"⟩] 1 emptyState)).available_tools.map
        Tool.name).count "dup" = 2 ∧
    lookupS "dup" (register_tools [⟨"dup", "second"⟩] 2
        (register_tools [⟨"dup", "first"⟩] 1 emptyState)).sessions = some 2 :=
  ⟨by decide, by decide⟩

/-- C2 amended: after any registration sequence in which name `n` is
registered (possibly several times, any kinds), the sessions dict holds
exactly one entry for `n` and it belongs to the last registration's
session; the per-kind record collections instead accumulate one record
per registration of `n`. -/
theorem c2_last_write_wins (evs : List RegEvent) (st : ChatBotState) (n : String)
    (sess : Nat) (hnd : (sessionNames st).Nodup)
    (hlast : lastRegSession n evs = some sess) :
    lookupS n (runReg evs st).sessions = some sess ∧
    (sessionNames (runReg evs st)).count n = 1 ∧
    recordCount n (runReg evs st) =
      recordCount n st + evs.countP (fun e => regName e = n) := by
  have hl := runReg_lookup_of_lastRegSession n sess evs st hlast
  refine ⟨hl, ?_, recordCount_runReg n evs st⟩
  have hnd' := nodup_sessionNames_runReg evs st hnd
  have hmem : n ∈ sessionNames (runReg evs st) := mem_keys_of_lookupS n sess _ hl
  exact List.count_eq_one_of_mem hnd' hmem

/-- C2 amended, witness: registering "dup" from session 1 then session 2
leaves one sessions entry, owned by session 2. -/
theorem c2_last_write_wins_check :
    ((sessionNames emptyState).Nodup ∧
     lastRegSession "dup"
       [RegEvent.tool ⟨"dup", "first"⟩ 1, RegEvent.tool ⟨"dup", "second"⟩ 2] = some 2) ∧
    lookupS "dup" (runReg
      [RegEvent.tool ⟨"dup", "first"⟩ 1, RegEvent.tool ⟨"dup", "second"⟩ 2]
      emptyState).sessions = some 2 :=
  ⟨⟨by decide, by decide⟩,
   (c2_last_write_wins
     [RegEvent.tool ⟨"dup", "first"⟩ 1, RegEvent.tool ⟨"dup", "second"⟩ 2]
     emptyState "dup" 2 (by decide) (by decide)).1⟩

/-- C3 counterexample: the non-empty line `@weather london` is not quit,
not `@resources` and not of the shape `@resource <name> ...`, yet the
loop does not invoke the default tool on it: every `@`-prefixed line is
handled by the resource path (here `london` is looked up as a resource
and the lookup raises `IndexError`). -/
theorem c3_at_prefixed_not_default :
    chat_iteration demoEnv demoState (some "@weather london") =
      ([.printed (.chatLoopError .indexError)], true) ∧
    (chat_iteration demoEnv demoState (some "@weather london")).1.countP isToolCall = 0 :=
  ⟨by decide, by decide⟩

/-- C3 amended: every line that is non-empty after stripping, is not
`quit` (case-insensitive) and does not start with `@` is routed to
`process_query`, which invokes the fixed tool `execute_gpt4all` with the
stripped line as the sole `prompt` argument; the loop stays Running. -/
theorem c3_plain_line_invokes_default (env : Env) (st : ChatBotState) (raw : String)
    (sess : Nat)
    (h0 : (pyStrip raw).data ≠ [])
    (h1 : pyLower (pyStrip raw) ≠ "quit")
    (h2 : (pyStrip raw).data.head? ≠ some '@')
    (h3 : lookupS "execute_gpt4all" st.sessions = some sess) :
    chat_iteration env st (some raw) = ((process_query env st (pyStrip raw)).1, true) ∧
    (process_query env st (pyStrip raw)).1.head? =
      some (.calledTool "execute_gpt4all" [("prompt", pyStrip raw)] sess) :=
  ⟨chat_iteration_default env st raw h0 h1 h2,
   process_query_head env st (pyStrip raw) sess h3⟩

/-- C3 amended, witness at the line "hello". -/
theorem c3_plain_line_invokes_default_check :
    ((pyStrip "hello").data ≠ [] ∧ pyLower (pyStrip "hello") ≠ "quit" ∧
     (pyStrip "hello").data.head? ≠ some '@' ∧
     lookupS "execute_gpt4all" demoState.sessions = some 7) ∧
    chat_iteration demoEnv demoState (some "hello") =
      ((process_query demoEnv demoState (pyStrip "hello")).1, true) ∧
    (process_query demoEnv demoState (pyStrip "hello")).1.head? =
      some (.calledTool "execute_gpt4all" [("prompt", pyStrip "hello")] 7) :=
  ⟨⟨by decide, by decide, by decide, by decide⟩,
   c3_plain_line_invokes_default demoEnv demoState "hello" 7
     (by decide) (by decide) (by decide) (by decide)⟩

/-- C4 counterexample: the line `say "hi` contains an unterminated quote,
but since it does not start with `@` it is never tokenized: no parse
error is reported and the line is not discarded — it is sent verbatim to
the default tool. -/
theorem c4_unterminated_quote_plain_line :
    shlexSplit "say \"hi" = none ∧
    chat_iteration demoEnv demoState (some "say \"hi") =
      ([.calledTool "execute_gpt4all" [("prompt", "say \"hi")] 7,
        .printed .responseHeader, .printed (.responseText "generated")], true) :=
  ⟨by decide, by decide⟩

/-- C4 amended: for `@`-prefixed lines (other than exactly `@resources`)
whose tokenization has an unterminated quote, the parse error is reported,
the line is discarded (no call is made; the subsequent `len(None)` raises
`TypeError`, which the loop handler catches), and the loop continues with
the next line; lines not starting with `@` are never tokenized. -/
theorem c4_at_line_parse_error_nonfatal (env : Env) (st : ChatBotState) (raw : String)
    (rest : List (Option String))
    (h1 : (pyStrip raw).data.head? = some '@')
    (h2 : pyStrip raw ≠ "@resources")
    (h4 : parse_command_arguments (pyStrip raw) = none) :
    chat_iteration env st (some raw) =
      ([.printed .parseError, .printed (.chatLoopError .typeError)], true) ∧
    chat_loop_run env st (some raw :: rest) =
      .printed .parseError :: .printed (.chatLoopError .typeError) ::
        chat_loop_run env st rest := by
  have h := chat_iteration_at_parse_error env st raw h1 h2 h4
  refine ⟨h, ?_⟩
  rw [chat_loop_run_cons_of_continue env st (some raw) rest (by rw [h])]
  rw [h]
  rfl

/-- C4 amended, witness at the spec's example line. -/
theorem c4_at_line_parse_error_nonfatal_check :
    ((pyStrip "@resource report title=\"Q1").data.head? = some '@' ∧
     pyStrip "@resource report title=\"Q1" ≠ "@resources" ∧
     parse_command_arguments (pyStrip "@resource report title=\"Q1") = none) ∧
    chat_iteration demoEnv demoState (some "@resource report title=\"Q1") =
      ([.printed .parseError, .printed (.chatLoopError .typeError)], true) :=
  ⟨⟨by decide, by decide, by decide⟩,
   (c4_at_line_parse_error_nonfatal demoEnv demoState "@resource report title=\"Q1" []
     (by decide) (by decide) (by decide)).1⟩

/-- C5: argument decoding splits each `key=value` token on the first `=`
only, strips exactly one layer of surrounding matching quotes from the
value, silently ignores tokens without `=`, and appends arguments in the
order given (fresh keys go to the end of the dict); the spec's example
line tokenizes and decodes as stated. -/
theorem c5_argument_decoding :
    (shlexSplit "@resource report year=2024 \"title=Q1 Report\"" =
       some ["@resource", "report", "year=2024", "title=Q1 Report"] ∧
     parse_prompt_arguments ["year=2024", "title=Q1 Report"] =
       [("year", "2024"), ("title", "Q1 Report")]) ∧
    (∀ (k v : List Char) (args : List (String × String)), '=' ∉ k →
      parseArgToken args ⟨k ++ '=' :: v⟩ =
        dictInsert ⟨k⟩ ⟨clean_quoted_value v⟩ args) ∧
    (∀ (q : Char) (inner : List Char), q = dquote ∨ q = squote →
      clean_quoted_value (q :: (inner ++ [q])) = inner) ∧
    (∀ (t : String) (args : List (String × String)), '=' ∉ t.data →
      parseArgToken args t = args) ∧
    (∀ (k v : String) (args : List (String × String)), k ∉ args.map Prod.fst →
      dictInsert k v args = args ++ [(k, v)]) := by
  refine ⟨⟨by decide, by decide⟩, ?_, ?_, ?_, ?_⟩
  · intro k v args h
    show (match splitFirstEq (k ++ '=' :: v) with
      | some (k₀, v₀) => dictInsert ⟨k₀⟩ ⟨clean_quoted_value v₀⟩ args
      | none => args) = dictInsert ⟨k⟩ ⟨clean_quoted_value v⟩ args
    rw [splitFirstEq_append k v h]
  · exact fun q inner h => clean_quoted_value_wrap q inner h
  · intro t args h
    show (match splitFirstEq t.data with
      | some (k₀, v₀) => dictInsert ⟨k₀⟩ ⟨clean_quoted_value v₀⟩ args
      | none => args) = args
    rw [splitFirstEq_of_not_mem t.data h]
  · intro k v args h
    exact dictInsert_of_not_mem k v args h

/-- C5, witness: the token `year=2024` decodes through the general
split-on-first-equals clause. -/
theorem c5_argument_decoding_check :
    ('=' ∉ ['y', 'e', 'a', 'r']) ∧
    parseArgToken [] ⟨['y', 'e', 'a', 'r'] ++ '=' :: ['2', '0', '2', '4']⟩ =
      dictInsert ⟨['y', 'e', 'a', 'r']⟩
        ⟨clean_quoted_value ['2', '0', '2', '4']⟩ [] :=
  ⟨by decide, c5_argument_decoding.2.1 ['y', 'e', 'a', 'r'] ['2', '0', '2', '4'] []
    (by decide)⟩

/-- C6: when a rostered server's handshake fails, the failure is logged
and every other server's successfully listed capabilities are all
registered in the final registry: one dead server never prevents the
others from connecting. -/
theorem c6_failed_server_isolation (roster : List ServerEntry) (st₀ : ChatBotState)
    (iname : String) (isess : Nat)
    (hi : ServerEntry.mk iname isess none ∈ roster) :
    LogMsg.connectError iname ∈ (connect_to_servers roster st₀).2 ∧
    ∀ (jname : String) (jsess : Nat) (caps : ServerCaps),
      ServerEntry.mk jname jsess (some caps) ∈ roster →
      ∀ k, kindErrors caps k = false →
        kindFullyRegistered caps (connect_to_servers roster st₀).1 k :=
  ⟨cts_log_mem roster st₀ iname isess hi,
   fun jname jsess caps hj k hk => cts_registers roster st₀ jname jsess caps hj k hk⟩

/-- C6, witness: in a roster with a dead server followed by a healthy
one, the failure is logged and the healthy server's tool is registered. -/
theorem c6_failed_server_isolation_check :
    (ServerEntry.mk "bad" 1 none ∈ rosterW) ∧
    LogMsg.connectError "bad" ∈ (connect_to_servers rosterW emptyState).2 ∧
    Tool.mk "t1" "a tool" ∈ (connect_to_servers rosterW emptyState).1.available_tools := by
  have h := c6_failed_server_isolation rosterW emptyState "bad" 1 (by decide)
  refine ⟨by decide, h.1, ?_⟩
  have h2 := h.2 "good" 2 capsGood (by decide) .tools (by decide)
  exact (h2 [⟨"t1", "a tool"⟩] rfl ⟨"t1", "a tool"⟩ (by decide)).1

/-- C7: capability discovery attempts the kinds in the fixed order tools,
prompts, resources, and when one kind's listing call errors, every other
kind with a successful listing is still fully registered. -/
theorem c7_per_kind_fault_tolerance (caps : ServerCaps) (sess : Nat)
    (st : ChatBotState) (k : CapKind) (hk : kindErrors caps k = true) :
    ((register_server_capabilities caps sess st).2.map Prod.fst = capabilityKinds) ∧
    ∀ k', k' ≠ k → kindErrors caps k' = false →
      kindFullyRegistered caps (register_server_capabilities caps sess st).1 k' :=
  ⟨rfl, fun k' _ hk' => rsc_registers caps sess st k' hk'⟩

/-- C7, witness: with the prompts listing erroring, tools and resources
are still registered and all three kinds were attempted in order. -/
theorem c7_per_kind_fault_tolerance_check :
    kindErrors capsPartial .prompts = true ∧
    (register_server_capabilities capsPartial 5 emptyState).2.map Prod.fst =
      capabilityKinds ∧
    Tool.mk "t1" "a tool" ∈
      (register_server_capabilities capsPartial 5 emptyState).1.available_tools ∧
    Resource.mk "r1" "a res" "api://r1" ∈
      (register_server_capabilities capsPartial 5 emptyState).1.available_resources := by
  have h := c7_per_kind_fault_tolerance capsPartial 5 emptyState .prompts (by decide)
  refine ⟨by decide, h.1, ?_, ?_⟩
  · exact ((h.2 .tools (by decide) (by decide)) [⟨"t1", "a tool"⟩] rfl
      ⟨"t1", "a tool"⟩ (by decide)).1
  · exact ((h.2 .resources (by decide) (by decide)) [⟨"r1", "a res", "api://r1"⟩] rfl
      ⟨"r1", "a res", "api://r1"⟩ (by decide)).1

/-- C8: end-of-input does not transition the loop to Terminating: the
`EOFError` from `input()` is caught by the blanket per-iteration handler,
the generic error is printed, and the loop keeps running (so the
exit-stack cleanup in `main` is never reached while stdin stays closed). -/
theorem c8_eof_keeps_loop_running (env : Env) (st : ChatBotState)
    (rest : List (Option String)) :
    chat_iteration env st none = ([.printed (.chatLoopError .eofError)], true) ∧
    chat_loop_run env st (none :: rest) =
      .printed (.chatLoopError .eofError) :: chat_loop_run env st rest := by
  refine ⟨rfl, ?_⟩
  rw [chat_loop_run_cons_of_continue env st none rest rfl]
  rfl

/-- C9: for a registered resource name, `read_resource` makes exactly the
same call and produces the same output whatever the parsed arguments: the
`args` parameter is never consulted (two-run independence). -/
theorem c9_read_resource_args_independent (env : Env) (st : ChatBotState)
    (rname : String) (a₁ a₂ : List (String × String))
    (h : rname ∈ st.available_resources.map Resource.name) :
    read_resource env st rname a₁ = read_resource env st rname a₂ := rfl

/-- C9, witness: reading the demo resource with and without arguments is
the same run. -/
theorem c9_read_resource_args_independent_check :
    ("report" ∈ demoState.available_resources.map Resource.name) ∧
    read_resource demoEnv demoState "report" [("year", "2024")] =
      read_resource demoEnv demoState "report" [] :=
  ⟨by decide, c9_read_resource_args_independent demoEnv demoState "report"
    [("year", "2024")] [] (by decide)⟩

/-- C10: if every record in the three collections owns a sessions-dict
entry, then the same holds after any `_register_tools`,
`_register_prompts` or `_register_resources` call. -/
theorem c10_registry_invariant_preserved (st : ChatBotState)
    (h : sessionInvariant st) :
    (∀ (resp : List Tool) (sess : Nat),
      sessionInvariant (register_tools resp sess st)) ∧
    (∀ (resp : List Prompt) (sess : Nat),
      sessionInvariant (register_prompts resp sess st)) ∧
    (∀ (resp : List Resource) (sess : Nat),
      sessionInvariant (register_resources resp sess st)) := by
  refine ⟨?_, ?_, ?_⟩
  · intro resp sess
    rw [register_tools_eq_runReg]
    exact sessionInvariant_runReg _ st h
  · intro resp sess
    rw [register_prompts_eq_runReg]
    exact sessionInvariant_runReg _ st h
  · intro resp sess
    rw [register_resources_eq_runReg]
    exact sessionInvariant_runReg _ st h

/-- C10, witness: the invariant holds for the demo registry and is kept
by registering one more tool. -/
theorem c10_registry_invariant_preserved_check :
    sessionInvariant demoState ∧
    sessionInvariant (register_tools [⟨"x", "d"⟩] 3 demoState) :=
  ⟨⟨by decide, by decide, by decide⟩,
   (c10_registry_invariant_preserved demoState
     ⟨by decide, by decide, by decide⟩).1 [⟨"x", "d"⟩] 3⟩

end MCPChat
